import Mathlib

-- Verification of the font-size SEO audit (lighthouse-core/audits/seo/font-size.js).
-- The JavaScript module is shallowly embedded below: JS objects become structures,
-- the insertion-ordered JS Map becomes an association list, JS template-literal
-- number formatting becomes an explicit decimal rendering (natStr), JS floating
-- point percentages become exact rationals, and the code paths that can throw a
-- TypeError (reading a missing attribute-value slot) return Option.none.

namespace FontSizeAudit

-- Decimal rendering of a natural number, modelling JS number-to-string
-- interpolation in template literals for the nonnegative integers that occur
-- here (line/column numbers, node ids, font sizes, text lengths).
-- Fuel-based structural recursion so that the kernel can evaluate it.

def digitChar (d : Nat) : Char :=
  if d = 0 then '0' else if d = 1 then '1' else if d = 2 then '2' else if d = 3 then '3'
  else if d = 4 then '4' else if d = 5 then '5' else if d = 6 then '6'
  else if d = 7 then '7' else if d = 8 then '8' else '9'

def natToCharsGo : Nat → Nat → List Char
  | 0, _ => []
  | fuel + 1, n =>
    if n < 10 then [digitChar n]
    else natToCharsGo fuel (n / 10) ++ [digitChar (n % 10)]

def natToChars (n : Nat) : List Char := natToCharsGo (n + 1) n

def natStr (n : Nat) : String := ⟨natToChars n⟩

-- Data model (section 3 of the module: FailingNodeData and its parts).

-- Model of the DevTools rule range: startLine / startColumn.
structure SourceRange where
  startLine : Nat
  startColumn : Nat
deriving DecidableEq

-- One selector of a CSS style rule; the source reads item.text.
structure CssSelector where
  text : String
deriving DecidableEq

-- Model of styleDeclaration.parentRule: origin tag plus selector list.
structure ParentRule where
  origin : String
  selectors : List CssSelector
deriving DecidableEq

-- Model of styleDeclaration.stylesheet. A missing or empty (falsy) sourceURL is
-- modelled as the empty string, which is how the source tests it (!sourceURL).
structure Stylesheet where
  sourceURL : String
  hasSourceURL : Bool
  isInline : Bool
  startLine : Nat
  startColumn : Nat
deriving DecidableEq

-- Model of a FailingNodeData cssRule (a CSS.CSSStyleDeclaration descriptor).
-- The type field holds the DevTools rule type tag, compared against the string
-- literals Regular, Attributes and Inline in the source.
structure CssRule where
  type : String
  styleSheetId : String
  range : Option SourceRange
  parentRule : Option ParentRule
  stylesheet : Option Stylesheet
deriving DecidableEq

-- Model of a FailingNodeData node: nodeId, localName, the flattened attribute
-- name/value sequence, and an optional reference to the parent node.
inductive DomNode : Type where
  | mk : Nat → String → Option (List String) → Option DomNode → DomNode

def DomNode.nodeId : DomNode → Nat
  | .mk i _ _ _ => i

def DomNode.localName : DomNode → String
  | .mk _ n _ _ => n

def DomNode.attributes : DomNode → Option (List String)
  | .mk _ _ a _ => a

def DomNode.parentNode : DomNode → Option DomNode
  | .mk _ _ _ p => p

-- One failing text fragment (FailingNodeData). The cssRule may be absent.
structure FailingNodeData where
  node : DomNode
  cssRule : Option CssRule
  fontSize : Nat
  textLength : Nat

-- The range start line of a rule, defaulting to 0 when no range is present
-- (the two let bindings at lines 206-207).
def rangeStartLine (range : Option SourceRange) : Nat :=
  match range with | some r => r.startLine | none => 0

def rangeStartColumn (range : Option SourceRange) : Nat :=
  match range with | some r => r.startColumn | none => 0

-- getFontArtifactId (font-size.js lines 204-212).
def getFontArtifactId (styleDeclaration : Option CssRule) (node : DomNode) : String :=
  match styleDeclaration with
  | some sd =>
    if sd.type = "Regular" then
      sd.styleSheetId ++ "@" ++ natStr (rangeStartLine sd.range) ++ ":" ++
        natStr (rangeStartColumn sd.range)
    else
      "node_" ++ natStr node.nodeId
  | none => "node_" ++ natStr node.nodeId

-- The artifact id of one fragment.
def fragId (f : FailingNodeData) : String := getFontArtifactId f.cssRule f.node

-- Total text length of the fragments of one artifact id in a fragment list.
def sumTL (l : List FailingNodeData) (id : String) : Nat :=
  ((l.filter (fun f => fragId f = id)).map (fun f => f.textLength)).sum

-- Association-list model of the insertion-ordered JS Map used by
-- getUniqueFailingRules. mapGet models Map.get, and mapUpdate models the
-- in-place mutation failingRule.textLength += textLength of the stored record.

def mapGet (failingRules : List (String × FailingNodeData)) (k : String) :
    Option FailingNodeData :=
  (failingRules.find? (fun p => p.1 = k)).map (fun p => p.2)

def mapUpdate : List (String × FailingNodeData) → String → Nat →
    List (String × FailingNodeData)
  | [], _, _ => []
  | p :: rest, k, tl =>
    if p.1 = k then (p.1, { p.2 with textLength := p.2.textLength + tl }) :: rest
    else p :: mapUpdate rest k tl

-- One step of the forEach body in getUniqueFailingRules (lines 39-53).
def insertFragment (failingRules : List (String × FailingNodeData))
    (f : FailingNodeData) : List (String × FailingNodeData) :=
  let artifactId := getFontArtifactId f.cssRule f.node
  match mapGet failingRules artifactId with
  | none =>
    failingRules ++ [(artifactId,
      { node := f.node, cssRule := f.cssRule, fontSize := f.fontSize,
        textLength := f.textLength })]
  | some _ => mapUpdate failingRules artifactId f.textLength

def failingRulesMap (fontSizeArtifact : List FailingNodeData) :
    List (String × FailingNodeData) :=
  fontSizeArtifact.foldl insertFragment []

-- getUniqueFailingRules (lines 35-56): the values of the map in insertion order.
def getUniqueFailingRules (fontSizeArtifact : List FailingNodeData) :
    List FailingNodeData :=
  (failingRulesMap fontSizeArtifact).map (fun p => p.2)

-- Association-list model of the Map built by getAttributeMap; mapSet models
-- Map.set (overwrite in place if the key exists, else append).

def mapSet : List (String × String) → String → String → List (String × String)
  | [], k, v => [(k, v)]
  | p :: rest, k, v => if p.1 = k then (k, v) :: rest else p :: mapSet rest k v

def mapFind (m : List (String × String)) (k : String) : Option String :=
  (m.find? (fun p => p.1 = k)).map (fun p => p.2)

-- getAttributeMap (lines 62-75). The loop reads attributes two at a time; on an
-- odd-length list the final iteration reads attributes at index i + 1, which is
-- undefined, and calling trim on it throws a TypeError: modelled as none.
def getAttributeMapGo : List String → List (String × String) →
    Option (List (String × String))
  | [], m => some m
  | [_], _ => none
  | name :: value :: rest, m =>
    let value' := value.trim
    let m' := if value' ≠ "" then mapSet m name.toLower value' else m
    getAttributeMapGo rest m'

def getAttributeMap (attributes : List String) : Option (List (String × String)) :=
  getAttributeMapGo attributes []

-- Model of the JS regex split on runs of whitespace applied to an already
-- trimmed, nonempty class value: split on whitespace and drop empty tokens.
def splitWs (s : String) : List String :=
  (s.split (fun c => c.isWhitespace)).filter (fun t => t ≠ "")

-- getSelector (lines 82-95). The JS call getAttributeMap(node.attributes)
-- applies the default parameter [] when attributes is undefined.
def getSelector (node : DomNode) : Option String :=
  (getAttributeMap (node.attributes.getD [])).map (fun attributeMap =>
    match mapFind attributeMap "id" with
    | some idValue => "#" ++ idValue
    | none =>
      match mapFind attributeMap "class" with
      | some attrClass =>
        if attrClass ≠ "" then "." ++ String.intercalate "." (splitWs attrClass)
        else node.localName.toLower
      | none => node.localName.toLower)

-- The attribute rendering of the snippet in nodeToTableNode (lines 103-105).
def attributesString (attributes : List String) : String :=
  String.join (attributes.enum.map (fun p =>
    if p.1 % 2 = 0 then " " ++ p.2 else "=\"" ++ p.2 ++ "\""))

-- The tagged selector value of a table row: a plain string or a node descriptor.
structure TableNode where
  selector : String
  snippet : String
deriving DecidableEq

-- nodeToTableNode (lines 101-112); getSelector on the parent can fail.
def nodeToTableNode (node : DomNode) : Option TableNode :=
  let attributes := node.attributes.getD []
  match node.parentNode with
  | some parent =>
    (getSelector parent).map (fun sel =>
      { selector := sel,
        snippet := "<" ++ node.localName ++ attributesString attributes ++ ">" })
  | none =>
    some { selector := "",
           snippet := "<" ++ node.localName ++ attributesString attributes ++ ">" }

-- The tagged source variant of a table row: url, code label, or source location.
inductive Source : Type where
  | url : String → Source
  | code : String → Source
  | sourceLocation : String → String → Nat → Nat → Source
deriving DecidableEq

inductive SelectorVal : Type where
  | str : String → SelectorVal
  | node : TableNode → SelectorVal
deriving DecidableEq

structure RuleSource where
  source : Source
  selector : SelectorVal
deriving DecidableEq

-- Joined selector text of a parent rule (lines 141-145 and 135).
def joinSelectors (parentRule : Option ParentRule) : String :=
  match parentRule with
  | some rule => String.intercalate ", " (rule.selectors.map (fun item => item.text))
  | none => ""

-- findStyleRuleSource (lines 120-197).
def findStyleRuleSource (baseURL : String) (styleDeclaration : Option CssRule)
    (node : DomNode) : Option RuleSource :=
  match styleDeclaration with
  | none =>
    (nodeToTableNode node).map (fun tn =>
      { source := Source.url baseURL, selector := SelectorVal.node tn })
  | some sd =>
    if sd.type = "Attributes" ∨ sd.type = "Inline" then
      (nodeToTableNode node).map (fun tn =>
        { source := Source.url baseURL, selector := SelectorVal.node tn })
    else if sd.parentRule.map (fun pr => pr.origin) = some "user-agent" then
      some { source := Source.code "User Agent Stylesheet",
             selector := SelectorVal.str (joinSelectors sd.parentRule) }
    else
      let selector := joinSelectors sd.parentRule
      match sd.stylesheet with
      | some stylesheet =>
        if stylesheet.sourceURL = "" then
          some { source := Source.code "dynamic", selector := SelectorVal.str selector }
        else
          match sd.range with
          | some range =>
            let urlProvider := if stylesheet.hasSourceURL then "comment" else "network"
            let addHtmlLocationOffset := stylesheet.isInline && (urlProvider != "comment")
            let line :=
              if addHtmlLocationOffset then range.startLine + stylesheet.startLine
              else range.startLine
            let column :=
              if addHtmlLocationOffset then
                if range.startLine = 0 then range.startColumn + stylesheet.startColumn
                else range.startColumn
              else range.startColumn
            some { source := Source.sourceLocation stylesheet.sourceURL urlProvider line column,
                   selector := SelectorVal.str selector }
          | none =>
            some { source := Source.code "Unknown", selector := SelectorVal.str selector }
      | none =>
        some { source := Source.code "Unknown", selector := SelectorVal.str selector }

-- The scoring threshold constant (line 13).
def MINIMAL_PERCENTAGE_OF_LEGIBLE_TEXT : ℚ := 60

-- The viewport explanation string of UIStrings (lines 25-26).
def explanationViewport : String :=
  "Text is illegible because there's no viewport meta tag optimized for mobile screens."

-- One table row of the report. The coverage percentage is kept as the exact
-- rational the code computes before the two-decimal display formatting.
structure ReportRow where
  source : Source
  selector : SelectorVal
  coverage : ℚ
  fontSize : String
deriving DecidableEq

-- The audit product: score plus the optional fields the code sets per branch.
-- displayValue is modelled by the decimalProportion fed to the i18n template.
structure AuditProduct where
  score : Nat
  notApplicable : Option Bool
  explanation : Option String
  displayValue : Option ℚ
  details : Option (List ReportRow)
deriving DecidableEq

-- The FontSize artifact (section of artifacts consumed at lines 250-255).
structure FontSizeArtifact where
  analyzedFailingNodesData : List FailingNodeData
  analyzedFailingTextLength : Nat
  failingTextLength : Nat
  totalTextLength : Nat

-- percentageOfPassingText (lines 264-265), as an exact rational.
def percentageOfPassingText (fs : FontSizeArtifact) : ℚ :=
  ((fs.totalTextLength : ℚ) - (fs.failingTextLength : ℚ)) / (fs.totalTextLength : ℚ) * 100

-- The synthetic row for failing text that was never individually analyzed
-- (lines 294-300).
def addlIllegibleRow (fs : FontSizeArtifact) : ReportRow :=
  { source := Source.code "Add'l illegible text",
    selector := SelectorVal.str "",
    coverage := ((fs.failingTextLength : ℚ) - (fs.analyzedFailingTextLength : ℚ)) /
      (fs.totalTextLength : ℚ) * 100,
    fontSize := "< 12px" }

-- The synthetic row for legible text (lines 303-310).
def legibleTextRow (fs : FontSizeArtifact) : ReportRow :=
  { source := Source.code "Legible text",
    selector := SelectorVal.str "",
    coverage := percentageOfPassingText fs,
    fontSize := "≥ 12px" }

-- One rule row of the table (lines 277-287).
def ruleRow (fs : FontSizeArtifact) (r : FailingNodeData) (origin : RuleSource) :
    ReportRow :=
  { source := origin.source,
    selector := origin.selector,
    coverage := (r.textLength : ℚ) / (fs.totalTextLength : ℚ) * 100,
    fontSize := natStr r.fontSize ++ "px" }

namespace FontSize

-- FontSize.audit (lines 233-323). The external viewport classifier
-- ComputedViewportMeta.request is outside this module; its boolean verdict
-- isMobileOptimized is passed in as an input, per the spec contract
-- classify(metaElements) = isMobileOptimized. The result is none exactly when
-- the JS code would throw (selector resolution on an odd attribute list).
def audit (testedAsMobileDevice : Bool) (isMobileOptimized : Bool)
    (fontSizeArtifact : FontSizeArtifact) (finalUrl : String) : Option AuditProduct :=
  if !testedAsMobileDevice then
    some { score := 1, notApplicable := some true, explanation := none,
           displayValue := none, details := none }
  else if !isMobileOptimized then
    some { score := 0, notApplicable := none, explanation := some explanationViewport,
           displayValue := none, details := none }
  else if fontSizeArtifact.totalTextLength = 0 then
    some { score := 1, notApplicable := none, explanation := none,
           displayValue := none, details := none }
  else
    let failingRules := getUniqueFailingRules fontSizeArtifact.analyzedFailingNodesData
    let pct := percentageOfPassingText fontSizeArtifact
    let sortedRules := failingRules.mergeSort (fun a b => decide (b.textLength ≤ a.textLength))
    let tableRows := sortedRules.mapM (fun r =>
      (findStyleRuleSource finalUrl r.cssRule r.node).map (ruleRow fontSizeArtifact r))
    tableRows.map (fun rows =>
      let rows :=
        if fontSizeArtifact.analyzedFailingTextLength < fontSizeArtifact.failingTextLength
        then rows ++ [addlIllegibleRow fontSizeArtifact] else rows
      let rows := if 0 < pct then rows ++ [legibleTextRow fontSizeArtifact] else rows
      { score := if MINIMAL_PERCENTAGE_OF_LEGIBLE_TEXT ≤ pct then 1 else 0,
        notApplicable := none, explanation := none,
        displayValue := some (pct / 100),
        details := some rows })

end FontSize

-- Concrete inputs used by the closed witness and counterexample theorems below.

def nodeSpan : DomNode := .mk 7 "span" none none

def nodeP : DomNode := .mk 8 "p" none none

-- A parent node whose flattened attribute list has odd length.
def nodeOddAttrs : DomNode := .mk 9 "div" (some ["a"]) none

def nodeWithOddParent : DomNode := .mk 10 "em" none (some nodeOddAttrs)

def regularRule (sheet : String) (line col : Nat) : CssRule :=
  { type := "Regular", styleSheetId := sheet,
    range := some { startLine := line, startColumn := col },
    parentRule := none, stylesheet := none }

def fragA : FailingNodeData :=
  { node := nodeSpan, cssRule := some (regularRule "s1" 0 0), fontSize := 10, textLength := 100 }

def fragB : FailingNodeData :=
  { node := nodeP, cssRule := some (regularRule "s1" 0 0), fontSize := 11, textLength := 50 }

def fragC : FailingNodeData :=
  { node := nodeP, cssRule := some (regularRule "s2" 0 0), fontSize := 11, textLength := 50 }

def fsEmpty : FontSizeArtifact :=
  { analyzedFailingNodesData := [], analyzedFailingTextLength := 300,
    failingTextLength := 300, totalTextLength := 1000 }

def fsZero : FontSizeArtifact :=
  { analyzedFailingNodesData := [], analyzedFailingTextLength := 0,
    failingTextLength := 0, totalTextLength := 0 }

-- An artifact whose analyzed fragments cover 100 of 300 failing characters.
def fsPartial : FontSizeArtifact :=
  { analyzedFailingNodesData := [fragA], analyzedFailingTextLength := 100,
    failingTextLength := 300, totalTextLength := 1000 }

-- An artifact whose fragments sum exactly to failingTextLength.
def fsBalanced : FontSizeArtifact :=
  { analyzedFailingNodesData := [fragA], analyzedFailingTextLength := 100,
    failingTextLength := 100, totalTextLength := 1000 }

def inlineSheet : Stylesheet :=
  { sourceURL := "https://page.example/", hasSourceURL := false, isInline := true,
    startLine := 5, startColumn := 2 }

def inlineRuleAt (line col : Nat) : CssRule :=
  { type := "Regular", styleSheetId := "s1",
    range := some { startLine := line, startColumn := col },
    parentRule := none, stylesheet := some inlineSheet }

def uaParentRule : ParentRule :=
  { origin := "user-agent", selectors := [{ text := ".x" }] }

def uaNoSheetRule : CssRule :=
  { type := "Regular", styleSheetId := "s9",
    range := some { startLine := 2, startColumn := 3 },
    parentRule := some uaParentRule, stylesheet := none }

def plainParentRule : ParentRule :=
  { origin := "regular", selectors := [{ text := ".a" }, { text := ".b" }] }

def noSheetRule : CssRule :=
  { type := "Regular", styleSheetId := "s9",
    range := some { startLine := 2, startColumn := 3 },
    parentRule := some plainParentRule, stylesheet := none }

end FontSizeAudit

namespace FontSizeAudit

-- Facts about the decimal rendering: every produced character is a digit
-- (hence neither the at sign nor the colon separator), and the rendering is
-- injective, which makes the Regular-rule artifact id a faithful key for the
-- triple of stylesheet id, start line and start column.

theorem digitChar_ne_sep (d : Nat) : digitChar d ≠ '@' ∧ digitChar d ≠ ':' := by
  unfold digitChar
  split_ifs <;> exact ⟨by decide, by decide⟩

theorem digitChar_inj_lt : ∀ d1 < 10, ∀ d2 < 10, digitChar d1 = digitChar d2 → d1 = d2 := by
  decide

theorem natToCharsGo_ne_nil : ∀ fuel n, n < fuel → natToCharsGo fuel n ≠ []
  | fuel + 1, n, _ => by
    rw [natToCharsGo]
    split
    · simp
    · simp

theorem natToCharsGo_ne_sep : ∀ fuel n, n < fuel →
    ∀ c ∈ natToCharsGo fuel n, c ≠ '@' ∧ c ≠ ':'
  | fuel + 1, n, hn => by
    rw [natToCharsGo]
    split
    · intro c hc
      rw [List.mem_singleton] at hc
      subst hc
      exact digitChar_ne_sep n
    · intro c hc
      rcases List.mem_append.mp hc with h1 | h2
      · have hdiv : n / 10 < n := Nat.div_lt_self (by omega) (by omega)
        exact natToCharsGo_ne_sep fuel (n / 10) (by omega) c h1
      · rw [List.mem_singleton] at h2
        subst h2
        exact digitChar_ne_sep (n % 10)

theorem natToCharsGo_inj : ∀ f1 f2 m n, m < f1 → n < f2 →
    natToCharsGo f1 m = natToCharsGo f2 n → m = n
  | f1 + 1, f2 + 1, m, n, hm, hn, heq => by
    rw [natToCharsGo, natToCharsGo] at heq
    by_cases h1 : m < 10 <;> by_cases h2 : n < 10
    · rw [if_pos h1, if_pos h2] at heq
      exact digitChar_inj_lt m h1 n h2 (List.singleton_injective heq)
    · rw [if_pos h1, if_neg h2] at heq
      exfalso
      have hdn : n / 10 < n := Nat.div_lt_self (by omega) (by omega)
      cases hl : natToCharsGo f2 (n / 10) with
      | nil => exact natToCharsGo_ne_nil f2 (n / 10) (by omega) hl
      | cons x xs => rw [hl] at heq; simp at heq
    · rw [if_neg h1, if_pos h2] at heq
      exfalso
      have hdm : m / 10 < m := Nat.div_lt_self (by omega) (by omega)
      cases hl : natToCharsGo f1 (m / 10) with
      | nil => exact natToCharsGo_ne_nil f1 (m / 10) (by omega) hl
      | cons x xs => rw [hl] at heq; simp at heq
    · rw [if_neg h1, if_neg h2] at heq
      obtain ⟨hinit, hlast⟩ := List.append_inj' heq rfl
      have hdm : m / 10 < m := Nat.div_lt_self (by omega) (by omega)
      have hdn : n / 10 < n := Nat.div_lt_self (by omega) (by omega)
      have hdiv : m / 10 = n / 10 :=
        natToCharsGo_inj f1 f2 (m / 10) (n / 10) (by omega) (by omega) hinit
      have hmod : m % 10 = n % 10 :=
        digitChar_inj_lt (m % 10) (Nat.mod_lt m (by omega)) (n % 10)
          (Nat.mod_lt n (by omega)) (List.singleton_injective hlast)
      omega

theorem natStr_data (n : Nat) : (natStr n).data = natToCharsGo (n + 1) n := rfl

theorem natStr_ne_sep (n : Nat) : ∀ c ∈ (natStr n).data, c ≠ '@' ∧ c ≠ ':' :=
  natToCharsGo_ne_sep (n + 1) n (Nat.lt_succ_self n)

theorem natStr_inj {m n : Nat} (h : natStr m = natStr n) : m = n :=
  natToCharsGo_inj (m + 1) (n + 1) m n (Nat.lt_succ_self m) (Nat.lt_succ_self n)
    (congrArg String.data h)

-- Splitting a character list at the last occurrence of a separator: if the
-- separator does not occur in either tail, prefix and tail are determined.
theorem append_sep_inj {s1 s2 t1 t2 : List Char} {c : Char}
    (h : s1 ++ c :: t1 = s2 ++ c :: t2) (h1 : c ∉ t1) (h2 : c ∉ t2) :
    s1 = s2 ∧ t1 = t2 := by
  induction s1 generalizing s2 with
  | nil =>
    cases s2 with
    | nil =>
      simp only [List.nil_append, List.cons.injEq] at h
      exact ⟨rfl, h.2⟩
    | cons b s2' =>
      exfalso
      simp only [List.nil_append, List.cons_append, List.cons.injEq] at h
      exact h1 (h.2 ▸ List.mem_append_right s2' (List.mem_cons_self c t2))
  | cons a s1' ih =>
    cases s2 with
    | nil =>
      exfalso
      simp only [List.nil_append, List.cons_append, List.cons.injEq] at h
      exact h2 (h.2.symm ▸ List.mem_append_right s1' (List.mem_cons_self c t1))
    | cons b s2' =>
      simp only [List.cons_append, List.cons.injEq] at h
      obtain ⟨hs, ht⟩ := ih h.2
      exact ⟨by rw [h.1, hs], ht⟩

theorem regularId_inj {s1 s2 : String} {l1 c1 l2 c2 : Nat}
    (h : s1 ++ "@" ++ natStr l1 ++ ":" ++ natStr c1 =
         s2 ++ "@" ++ natStr l2 ++ ":" ++ natStr c2) :
    s1 = s2 ∧ l1 = l2 ∧ c1 = c2 := by
  have hd := congrArg String.data h
  simp only [String.data_append] at hd
  have hd' : s1.data ++ '@' :: ((natStr l1).data ++ ':' :: (natStr c1).data) =
      s2.data ++ '@' :: ((natStr l2).data ++ ':' :: (natStr c2).data) := by
    simpa [List.append_assoc] using hd
  have hat1 : '@' ∉ (natStr l1).data ++ ':' :: (natStr c1).data := by
    intro hmem
    rcases List.mem_append.mp hmem with hx | hx
    · exact (natStr_ne_sep l1 '@' hx).1 rfl
    · rcases List.mem_cons.mp hx with hx | hx
      · exact absurd hx (by decide)
      · exact (natStr_ne_sep c1 '@' hx).1 rfl
  have hat2 : '@' ∉ (natStr l2).data ++ ':' :: (natStr c2).data := by
    intro hmem
    rcases List.mem_append.mp hmem with hx | hx
    · exact (natStr_ne_sep l2 '@' hx).1 rfl
    · rcases List.mem_cons.mp hx with hx | hx
      · exact absurd hx (by decide)
      · exact (natStr_ne_sep c2 '@' hx).1 rfl
  obtain ⟨hs, hrest⟩ := append_sep_inj hd' hat1 hat2
  have hcol1 : ':' ∉ (natStr c1).data := fun hx => (natStr_ne_sep c1 ':' hx).2 rfl
  have hcol2 : ':' ∉ (natStr c2).data := fun hx => (natStr_ne_sep c2 ':' hx).2 rfl
  obtain ⟨hl, hc⟩ := append_sep_inj hrest hcol1 hcol2
  refine ⟨String.ext hs, natStr_inj (String.ext hl), natStr_inj (String.ext hc)⟩

-- The artifact id of a Regular rule agrees between two rules exactly when the
-- stylesheet id and the defaulted range start line and column agree.
theorem getFontArtifactId_regular_iff (r1 r2 : CssRule) (n1 n2 : DomNode)
    (h1 : r1.type = "Regular") (h2 : r2.type = "Regular") :
    getFontArtifactId (some r1) n1 = getFontArtifactId (some r2) n2 ↔
      (r1.styleSheetId = r2.styleSheetId ∧
       rangeStartLine r1.range = rangeStartLine r2.range ∧
       rangeStartColumn r1.range = rangeStartColumn r2.range) := by
  simp only [getFontArtifactId]
  rw [if_pos h1, if_pos h2]
  constructor
  · intro h
    exact regularId_inj h
  · rintro ⟨hs, hl, hc⟩
    rw [hs, hl, hc]

-- Lemmas about the association-list model of the aggregation map.

theorem mapGet_nil (k : String) : mapGet [] k = none := rfl

theorem mapGet_cons (p : String × FailingNodeData) (rest : List (String × FailingNodeData))
    (k : String) :
    mapGet (p :: rest) k = if p.1 = k then some p.2 else mapGet rest k := by
  by_cases h : p.1 = k <;> simp [mapGet, List.find?_cons, h]

theorem mapGet_append_single (acc : List (String × FailingNodeData))
    (x : String × FailingNodeData) (k : String) :
    mapGet (acc ++ [x]) k =
      (mapGet acc k).or (if x.1 = k then some x.2 else none) := by
  induction acc with
  | nil => by_cases h : x.1 = k <;> simp [mapGet_nil, mapGet_cons, h]
  | cons p rest ih =>
    by_cases h : p.1 = k <;>
      simp [List.cons_append, mapGet_cons, h, ih]

theorem mapGet_mapUpdate (acc : List (String × FailingNodeData)) (k : String) (tl : Nat)
    (id : String) :
    mapGet (mapUpdate acc k tl) id =
      if id = k then
        (mapGet acc id).map (fun r => { r with textLength := r.textLength + tl })
      else mapGet acc id := by
  induction acc with
  | nil => by_cases h : id = k <;> simp [mapUpdate, mapGet_nil, h]
  | cons p rest ih =>
    by_cases hk : p.1 = k
    · by_cases hid : id = k
      · have : p.1 = id := by rw [hk, hid]
        simp [mapUpdate, if_pos hk, mapGet_cons, this, hid]
      · have : ¬ p.1 = id := by rw [hk]; exact fun h => hid h.symm
        simp [mapUpdate, if_pos hk, mapGet_cons, this, hid]
    · by_cases hid : p.1 = id
      · have : ¬ id = k := by rw [← hid]; exact fun h => hk h
        simp [mapUpdate, if_neg hk, mapGet_cons, hid, this]
      · simp [mapUpdate, if_neg hk, mapGet_cons, hid, ih]

theorem mapGet_insertFragment (acc : List (String × FailingNodeData))
    (f : FailingNodeData) (id : String) :
    mapGet (insertFragment acc f) id =
      if fragId f = id then
        match mapGet acc id with
        | some r => some { r with textLength := r.textLength + f.textLength }
        | none => some { node := f.node, cssRule := f.cssRule, fontSize := f.fontSize,
                         textLength := f.textLength }
      else mapGet acc id := by
  have hkey : getFontArtifactId f.cssRule f.node = fragId f := rfl
  unfold insertFragment
  rw [hkey]
  rcases hacc : mapGet acc (fragId f) with _ | r
  · simp only [hacc, mapGet_append_single]
    by_cases h : fragId f = id
    · subst h
      simp [hacc]
    · simp [h]
  · simp only [hacc, mapGet_mapUpdate]
    by_cases h : fragId f = id
    · subst h
      simp [hacc]
    · have h2 : ¬ id = fragId f := fun hh => h hh.symm
      simp [h, h2]

theorem sumTL_nil (id : String) : sumTL [] id = 0 := rfl

theorem sumTL_cons (f : FailingNodeData) (l : List FailingNodeData) (id : String) :
    sumTL (f :: l) id = (if fragId f = id then f.textLength else 0) + sumTL l id := by
  by_cases h : fragId f = id <;> simp [sumTL, List.filter_cons, h]

-- The central characterization of the aggregation fold: looking up an artifact
-- id in the final map finds the first fragment with that id carrying the total
-- text length of all fragments with that id.
theorem mapGet_foldl_insertFragment (l : List FailingNodeData)
    (acc : List (String × FailingNodeData)) (id : String) :
    mapGet (l.foldl insertFragment acc) id =
      match mapGet acc id with
      | some r => some { r with textLength := r.textLength + sumTL l id }
      | none =>
        (l.find? (fun f => fragId f = id)).map (fun f0 =>
          { node := f0.node, cssRule := f0.cssRule, fontSize := f0.fontSize,
            textLength := sumTL l id }) := by
  induction l generalizing acc with
  | nil =>
    rcases h : mapGet acc id with _ | r <;> simp [h, sumTL_nil]
  | cons f l ih =>
    rw [List.foldl_cons, ih, mapGet_insertFragment]
    by_cases hf : fragId f = id
    · rcases h : mapGet acc id with _ | r
      · simp [if_pos hf, h, List.find?_cons, hf, sumTL_cons]
      · obtain ⟨nd, cr, fsz, tl⟩ := r
        simp [if_pos hf, h, sumTL_cons, hf, Nat.add_assoc]
    · rcases h : mapGet acc id with _ | r
      · simp [if_neg hf, h, List.find?_cons, hf, sumTL_cons]
      · simp [if_neg hf, h, sumTL_cons, hf]

theorem mapGet_failingRulesMap (l : List FailingNodeData) (id : String) :
    mapGet (failingRulesMap l) id =
      (l.find? (fun f => fragId f = id)).map (fun f0 =>
        { node := f0.node, cssRule := f0.cssRule, fontSize := f0.fontSize,
          textLength := sumTL l id }) := by
  have h := mapGet_foldl_insertFragment l [] id
  simpa [failingRulesMap, mapGet_nil] using h

-- Total text length is preserved by the aggregation.

theorem sum_mapUpdate (acc : List (String × FailingNodeData)) (k : String) (tl : Nat)
    (h : (mapGet acc k).isSome) :
    ((mapUpdate acc k tl).map (fun p => p.2.textLength)).sum =
      ((acc.map (fun p => p.2.textLength)).sum) + tl := by
  induction acc with
  | nil => simp [mapGet_nil] at h
  | cons p rest ih =>
    by_cases hk : p.1 = k
    · simp [mapUpdate, if_pos hk]
      omega
    · rw [mapGet_cons, if_neg hk] at h
      simp [mapUpdate, if_neg hk, ih h]
      omega

theorem sum_insertFragment (acc : List (String × FailingNodeData)) (f : FailingNodeData) :
    ((insertFragment acc f).map (fun p => p.2.textLength)).sum =
      ((acc.map (fun p => p.2.textLength)).sum) + f.textLength := by
  unfold insertFragment
  rcases hacc : mapGet acc (getFontArtifactId f.cssRule f.node) with _ | r
  · simp only [hacc]
    simp
  · simp only [hacc]
    exact sum_mapUpdate acc _ f.textLength (by rw [hacc]; rfl)

theorem sum_foldl_insertFragment (l : List FailingNodeData)
    (acc : List (String × FailingNodeData)) :
    (((l.foldl insertFragment acc).map (fun p => p.2.textLength)).sum) =
      ((acc.map (fun p => p.2.textLength)).sum) + (l.map (fun f => f.textLength)).sum := by
  induction l generalizing acc with
  | nil => simp
  | cons f l ih =>
    rw [List.foldl_cons, ih, sum_insertFragment]
    simp
    omega

theorem sum_getUniqueFailingRules (l : List FailingNodeData) :
    ((getUniqueFailingRules l).map (fun f => f.textLength)).sum =
      (l.map (fun f => f.textLength)).sum := by
  have h := sum_foldl_insertFragment l []
  simpa [getUniqueFailingRules, failingRulesMap, List.map_map, Function.comp] using h

-- Generic facts about mapM over the Option monad and Pairwise transfer along a
-- Forall2 relation, used to reason about the row construction of the report.

theorem forall2_of_mapM_option {α β : Type} (f : α → Option β) :
    ∀ (l : List α) (l' : List β), l.mapM f = some l' →
      List.Forall₂ (fun a b => f a = some b) l l'
  | [], l', h => by
    rw [List.mapM_nil] at h
    cases h
    exact .nil
  | a :: l, l', h => by
    rw [List.mapM_cons] at h
    cases hfa : f a with
    | none => rw [hfa] at h; simp at h
    | some b =>
      rw [hfa] at h
      cases hml : l.mapM f with
      | none => rw [hml] at h; simp at h
      | some bs =>
        rw [hml] at h
        simp at h
        rw [← h]
        exact List.Forall₂.cons hfa (forall2_of_mapM_option f l bs hml)

theorem forall2_mem_right {α β : Type} {R : α → β → Prop} {l : List α} {l' : List β}
    (h : List.Forall₂ R l l') : ∀ {b}, b ∈ l' → ∃ a ∈ l, R a b := by
  induction h with
  | nil => intro b hb; cases hb
  | cons hr _ ih =>
    intro b hb
    rcases List.mem_cons.mp hb with rfl | hb
    · exact ⟨_, List.mem_cons_self _ _, hr⟩
    · obtain ⟨a, ha, har⟩ := ih hb
      exact ⟨a, List.mem_cons_of_mem _ ha, har⟩

theorem forall2_pairwise {α β : Type} {R : α → β → Prop} {P : α → α → Prop}
    {Q : β → β → Prop} (hPQ : ∀ a a' b b', R a b → R a' b' → P a a' → Q b b') :
    ∀ {l : List α} {l' : List β}, List.Forall₂ R l l' → l.Pairwise P → l'.Pairwise Q := by
  intro l l' hf
  induction hf with
  | nil => intro _; exact .nil
  | cons hr ht ih =>
    intro hp
    cases hp with
    | cons hp1 hp2 =>
      refine List.Pairwise.cons ?_ (ih hp2)
      intro b' hb'
      obtain ⟨a', ha', hra'⟩ := forall2_mem_right ht hb'
      exact hPQ _ _ _ _ hr hra' (hp1 a' ha')

-- The attribute loop succeeds exactly on even-length attribute lists.

theorem getAttributeMapGo_isSome : ∀ (l : List String) (m : List (String × String)),
    (getAttributeMapGo l m).isSome = true ↔ l.length % 2 = 0
  | [], m => by simp [getAttributeMapGo]
  | [a], m => by simp [getAttributeMapGo]
  | a :: b :: t, m => by
    simp only [getAttributeMapGo]
    rw [getAttributeMapGo_isSome t _]
    simp only [List.length_cons]
    omega

theorem getAttributeMap_isSome (attributes : List String) :
    (getAttributeMap attributes).isSome = true ↔ attributes.length % 2 = 0 :=
  getAttributeMapGo_isSome attributes []

theorem getSelector_isSome_eq (node : DomNode) :
    (getSelector node).isSome = (getAttributeMap (node.attributes.getD [])).isSome := by
  unfold getSelector
  rcases h : getAttributeMap (node.attributes.getD []) with _ | m <;> simp [h]

-- Shape of the audit product in the full-analysis state: the table is the
-- mapped sorted rule rows followed by the two optional synthetic rows, and the
-- score, displayValue fields are as computed from the passing percentage.

theorem audit_full_shape (fs : FontSizeArtifact) (url : String) (r : AuditProduct)
    (hT : ¬ fs.totalTextLength = 0)
    (h : FontSize.audit true true fs url = some r) :
    ∃ rows : List ReportRow,
      ((getUniqueFailingRules fs.analyzedFailingNodesData).mergeSort
          (fun a b => decide (b.textLength ≤ a.textLength))).mapM
        (fun rr => (findStyleRuleSource url rr.cssRule rr.node).map (ruleRow fs rr)) =
        some rows ∧
      r = { score := if MINIMAL_PERCENTAGE_OF_LEGIBLE_TEXT ≤ percentageOfPassingText fs
                     then 1 else 0,
            notApplicable := none, explanation := none,
            displayValue := some (percentageOfPassingText fs / 100),
            details := some ((rows ++
              (if fs.analyzedFailingTextLength < fs.failingTextLength
               then [addlIllegibleRow fs] else [])) ++
              (if 0 < percentageOfPassingText fs then [legibleTextRow fs] else [])) } := by
  unfold FontSize.audit at h
  simp only [Bool.not_true, Bool.false_eq_true, if_false, if_neg hT] at h
  rw [Option.map_eq_some'] at h
  obtain ⟨rows, h1, h2⟩ := h
  refine ⟨rows, h1, ?_⟩
  rw [← h2]
  by_cases c1 : fs.analyzedFailingTextLength < fs.failingTextLength <;>
    by_cases c2 : 0 < percentageOfPassingText fs <;>
      simp [c1, c2]

/-- C1: in the full-analysis state the final score is pass (1) iff the passing
percentage is at least the MINIMAL_PERCENTAGE_OF_LEGIBLE_TEXT threshold, which
equals 60; otherwise the score is fail (0); and displayValue is the passing
percentage divided by 100. -/
theorem audit_score_iff_passing_percentage (fs : FontSizeArtifact) (url : String)
    (r : AuditProduct) (hT : ¬ fs.totalTextLength = 0)
    (h : FontSize.audit true true fs url = some r) :
    (r.score = 1 ↔ MINIMAL_PERCENTAGE_OF_LEGIBLE_TEXT ≤ percentageOfPassingText fs) ∧
    (r.score = 0 ↔ percentageOfPassingText fs < MINIMAL_PERCENTAGE_OF_LEGIBLE_TEXT) ∧
    MINIMAL_PERCENTAGE_OF_LEGIBLE_TEXT = 60 ∧
    r.displayValue = some (percentageOfPassingText fs / 100) := by
  obtain ⟨rows, _, h2⟩ := audit_full_shape fs url r hT h
  subst h2
  by_cases hc : MINIMAL_PERCENTAGE_OF_LEGIBLE_TEXT ≤ percentageOfPassingText fs
  · refine ⟨by simp [hc], ?_, rfl, rfl⟩
    simp only [if_pos hc]
    exact iff_of_false (by decide) (not_lt.mpr hc)
  · refine ⟨?_, by simp [hc, lt_of_not_le hc], rfl, rfl⟩
    simp only [if_neg hc]
    exact iff_of_false (by decide) hc

/-- C1 witness: a concrete artifact with 1000 total and 300 failing characters
reaches the full-analysis state with passing percentage 70 and score 1. -/
theorem audit_score_iff_passing_percentage_witness :
    (({ score := 1, notApplicable := none, explanation := none,
        displayValue := some (7 / 10), details := some [legibleTextRow fsEmpty] } :
        AuditProduct).score = 1 ↔
      MINIMAL_PERCENTAGE_OF_LEGIBLE_TEXT ≤ percentageOfPassingText fsEmpty) :=
  (audit_score_iff_passing_percentage fsEmpty "https://example.com/" _ (by decide)
    (by simp [FontSize.audit, List.mergeSort_nil, getUniqueFailingRules, failingRulesMap,
          percentageOfPassingText, fsEmpty, MINIMAL_PERCENTAGE_OF_LEGIBLE_TEXT]
        norm_num
        rfl)).1

/-- C2: the audit short-circuits through three terminal states: not tested as
mobile gives score 1 with notApplicable set and no details; not mobile
optimized gives score 0 with the viewport explanation and no details; zero
total text length gives score 1 with no details. -/
theorem audit_short_circuits (fs : FontSizeArtifact) (url : String) (mo : Bool) :
    (FontSize.audit false mo fs url =
      some { score := 1, notApplicable := some true, explanation := none,
             displayValue := none, details := none }) ∧
    (FontSize.audit true false fs url =
      some { score := 0, notApplicable := none, explanation := some explanationViewport,
             displayValue := none, details := none }) ∧
    (fs.totalTextLength = 0 → FontSize.audit true true fs url =
      some { score := 1, notApplicable := none, explanation := none,
             displayValue := none, details := none }) := by
  refine ⟨rfl, rfl, fun h0 => ?_⟩
  unfold FontSize.audit
  simp [h0]

/-- C2 witness: the three short-circuit branches at a concrete artifact with
zero total text length. -/
theorem audit_short_circuits_witness :
    fsZero.totalTextLength = 0 ∧
    FontSize.audit true true fsZero "https://example.com/" =
      some { score := 1, notApplicable := none, explanation := none,
             displayValue := none, details := none } :=
  ⟨rfl, (audit_short_circuits fsZero "https://example.com/" true).2.2 rfl⟩

/-- C3: for Regular rules the artifact id is the stylesheet id plus the
defaulted range start line and column, otherwise a node key; two fragments
with equal stylesheet id and range start collapse into one aggregated row with
summed textLength, and two Regular fragments differing in stylesheet or range
never collapse. -/
theorem artifact_id_collapse (r1 r2 : CssRule) (n1 n2 : DomNode)
    (fsz1 fsz2 tl1 tl2 : Nat) (h1 : r1.type = "Regular") (h2 : r2.type = "Regular") :
    (getFontArtifactId (some r1) n1 = getFontArtifactId (some r2) n2 ↔
      (r1.styleSheetId = r2.styleSheetId ∧
       rangeStartLine r1.range = rangeStartLine r2.range ∧
       rangeStartColumn r1.range = rangeStartColumn r2.range)) ∧
    (∀ (rr : CssRule) (n : DomNode), ¬ rr.type = "Regular" →
      getFontArtifactId (some rr) n = "node_" ++ natStr n.nodeId) ∧
    (∀ n : DomNode, getFontArtifactId none n = "node_" ++ natStr n.nodeId) ∧
    ((r1.styleSheetId = r2.styleSheetId ∧
      rangeStartLine r1.range = rangeStartLine r2.range ∧
      rangeStartColumn r1.range = rangeStartColumn r2.range) →
      getUniqueFailingRules
        [{ node := n1, cssRule := some r1, fontSize := fsz1, textLength := tl1 },
         { node := n2, cssRule := some r2, fontSize := fsz2, textLength := tl2 }] =
        [{ node := n1, cssRule := some r1, fontSize := fsz1, textLength := tl1 + tl2 }]) ∧
    (¬ (r1.styleSheetId = r2.styleSheetId ∧
        rangeStartLine r1.range = rangeStartLine r2.range ∧
        rangeStartColumn r1.range = rangeStartColumn r2.range) →
      getUniqueFailingRules
        [{ node := n1, cssRule := some r1, fontSize := fsz1, textLength := tl1 },
         { node := n2, cssRule := some r2, fontSize := fsz2, textLength := tl2 }] =
        [{ node := n1, cssRule := some r1, fontSize := fsz1, textLength := tl1 },
         { node := n2, cssRule := some r2, fontSize := fsz2, textLength := tl2 }]) := by
  have hiff := getFontArtifactId_regular_iff r1 r2 n1 n2 h1 h2
  refine ⟨hiff, ?_, ?_, ?_, ?_⟩
  · intro rr n hn
    simp only [getFontArtifactId]
    rw [if_neg hn]
  · intro n
    rfl
  · intro hsame
    have hid : getFontArtifactId (some r1) n1 = getFontArtifactId (some r2) n2 :=
      hiff.mpr hsame
    simp [getUniqueFailingRules, failingRulesMap, insertFragment, mapGet, mapUpdate,
      List.find?_cons, ← hid]
  · intro hdiff
    have hid : ¬ getFontArtifactId (some r1) n1 = getFontArtifactId (some r2) n2 :=
      fun hh => hdiff (hiff.mp hh)
    simp [getUniqueFailingRules, failingRulesMap, insertFragment, mapGet, mapUpdate,
      List.find?_cons, hid]

/-- C3 witness: two fragments with the same stylesheet id and range start
collapse into one row with summed textLength. -/
theorem artifact_id_collapse_witness :
    getUniqueFailingRules [fragA, fragB] =
      [{ node := nodeSpan, cssRule := some (regularRule "s1" 0 0), fontSize := 10,
         textLength := 150 }] :=
  (artifact_id_collapse (regularRule "s1" 0 0) (regularRule "s1" 0 0) nodeSpan nodeP
    10 11 100 50 rfl rfl).2.2.2.1 ⟨rfl, rfl, rfl⟩

/-- C4: for a rule in an inline stylesheet whose URL did not come from a
sourceURL comment, the resolved location adds the stylesheet start line to the
range start line, and adds the stylesheet start column only when the range
starts at line 0; with a sourceURL comment no offset is applied. -/
theorem inline_stylesheet_offset (baseURL : String) (sd : CssRule) (node : DomNode)
    (stylesheet : Stylesheet) (range : SourceRange)
    (hreg : sd.type = "Regular")
    (hua : ¬ sd.parentRule.map (fun pr => pr.origin) = some "user-agent")
    (hss : sd.stylesheet = some stylesheet)
    (hr : sd.range = some range)
    (hurl : ¬ stylesheet.sourceURL = "")
    (hinline : stylesheet.isInline = true) :
    (stylesheet.hasSourceURL = false →
      findStyleRuleSource baseURL (some sd) node =
        some { source := Source.sourceLocation stylesheet.sourceURL "network"
                 (range.startLine + stylesheet.startLine)
                 (if range.startLine = 0 then range.startColumn + stylesheet.startColumn
                  else range.startColumn),
               selector := SelectorVal.str (joinSelectors sd.parentRule) }) ∧
    (stylesheet.hasSourceURL = true →
      findStyleRuleSource baseURL (some sd) node =
        some { source := Source.sourceLocation stylesheet.sourceURL "comment"
                 range.startLine range.startColumn,
               selector := SelectorVal.str (joinSelectors sd.parentRule) }) := by
  have hAI : ¬ (sd.type = "Attributes" ∨ sd.type = "Inline") := by rw [hreg]; decide
  have hnetwork : (("network" : String) != "comment") = true := by decide
  have hcomment : (("comment" : String) != "comment") = false := by decide
  constructor
  · intro hcm
    simp only [findStyleRuleSource]
    rw [if_neg hAI, if_neg hua]
    simp only [hss, hr]
    rw [if_neg hurl]
    simp [hcm, hinline, hnetwork]
  · intro hcm
    simp only [findStyleRuleSource]
    rw [if_neg hAI, if_neg hua]
    simp only [hss, hr]
    rw [if_neg hurl]
    simp [hcm, hcomment]

/-- C4 witness: the concrete scenario of the spec, an inline stylesheet at line
5 column 2 with ranges starting at lines 0 and 1. -/
theorem inline_stylesheet_offset_witness :
    findStyleRuleSource "https://base/" (some (inlineRuleAt 0 3)) nodeSpan =
      some { source := Source.sourceLocation "https://page.example/" "network" 5 5,
             selector := SelectorVal.str "" } ∧
    findStyleRuleSource "https://base/" (some (inlineRuleAt 1 3)) nodeSpan =
      some { source := Source.sourceLocation "https://page.example/" "network" 6 3,
             selector := SelectorVal.str "" } := by
  constructor
  · exact (inline_stylesheet_offset "https://base/" (inlineRuleAt 0 3) nodeSpan
      inlineSheet { startLine := 0, startColumn := 3 } rfl (by decide) rfl rfl
      (by decide) rfl).1 rfl
  · exact (inline_stylesheet_offset "https://base/" (inlineRuleAt 1 3) nodeSpan
      inlineSheet { startLine := 1, startColumn := 3 } rfl (by decide) rfl rfl
      (by decide) rfl).1 rfl

/-- C5: in a full report the rule rows are sorted by descending coverage
(hence descending aggregated textLength), one row per aggregated rule drawn
from the stable descending sort of the aggregation output (so ties keep their
first-seen aggregation order), and the two synthetic rows always come last:
the additional-illegible-text row exactly when analyzedFailingTextLength is
less than failingTextLength, followed by the legible-text row exactly when the
passing percentage is positive. -/
theorem report_rows_sorted (fs : FontSizeArtifact) (url : String) (r : AuditProduct)
    (rows : List ReportRow) (hT : ¬ fs.totalTextLength = 0)
    (h : FontSize.audit true true fs url = some r) (hd : r.details = some rows) :
    ∃ ruleRows : List ReportRow,
      rows = (ruleRows ++
        (if fs.analyzedFailingTextLength < fs.failingTextLength
         then [addlIllegibleRow fs] else [])) ++
        (if 0 < percentageOfPassingText fs then [legibleTextRow fs] else []) ∧
      (ruleRows.map (fun row => row.coverage)).Pairwise (fun a b => b ≤ a) ∧
      List.Forall₂ (fun a row =>
          (findStyleRuleSource url a.cssRule a.node).map (ruleRow fs a) = some row)
        ((getUniqueFailingRules fs.analyzedFailingNodesData).mergeSort
          (fun a b => decide (b.textLength ≤ a.textLength))) ruleRows ∧
      (∀ c : List FailingNodeData,
        c.Sublist (getUniqueFailingRules fs.analyzedFailingNodesData) →
        c.Pairwise (fun a b => b.textLength ≤ a.textLength) →
        c.Sublist ((getUniqueFailingRules fs.analyzedFailingNodesData).mergeSort
          (fun a b => decide (b.textLength ≤ a.textLength)))) ∧
      ruleRows.length = (getUniqueFailingRules fs.analyzedFailingNodesData).length := by
  obtain ⟨rr, h1, h2⟩ := audit_full_shape fs url r hT h
  subst h2
  have hrows : rows = (rr ++
      (if fs.analyzedFailingTextLength < fs.failingTextLength
       then [addlIllegibleRow fs] else [])) ++
      (if 0 < percentageOfPassingText fs then [legibleTextRow fs] else []) := by
    simpa using hd.symm
  have htrans : ∀ a b c : FailingNodeData,
      (fun a b : FailingNodeData => decide (b.textLength ≤ a.textLength)) a b = true →
      (fun a b : FailingNodeData => decide (b.textLength ≤ a.textLength)) b c = true →
      (fun a b : FailingNodeData => decide (b.textLength ≤ a.textLength)) a c = true := by
    intro a b c hab hbc
    simp at hab hbc ⊢
    omega
  have htotalrel : ∀ a b : FailingNodeData,
      ((fun a b : FailingNodeData => decide (b.textLength ≤ a.textLength)) a b ||
       (fun a b : FailingNodeData => decide (b.textLength ≤ a.textLength)) b a) = true := by
    intro a b
    simp [Nat.le_total]
  have hforall2 := forall2_of_mapM_option _ _ _ h1
  refine ⟨rr, hrows, ?_, hforall2, ?_, ?_⟩
  · have htotal : (0 : ℚ) < (fs.totalTextLength : ℚ) := by
      have := Nat.pos_of_ne_zero hT
      exact_mod_cast this
    have hsorted := @List.sorted_mergeSort FailingNodeData
      (fun a b : FailingNodeData => decide (b.textLength ≤ a.textLength))
      htrans htotalrel
      (getUniqueFailingRules fs.analyzedFailingNodesData)
    rw [List.pairwise_map]
    refine forall2_pairwise ?_ hforall2 hsorted
    intro a a' b b' hb hb' hle
    rw [Option.map_eq_some'] at hb hb'
    obtain ⟨o, _, hbo⟩ := hb
    obtain ⟨o', _, hbo'⟩ := hb'
    rw [← hbo, ← hbo']
    simp only [ruleRow]
    simp only [decide_eq_true_eq] at hle
    have hcast : (a'.textLength : ℚ) ≤ (a.textLength : ℚ) := by exact_mod_cast hle
    have h100 : (0 : ℚ) ≤ 100 := by norm_num
    gcongr
  · intro c hsub hpair
    exact List.sublist_mergeSort htrans htotalrel
      (hpair.imp (fun hab => by simp [hab])) hsub
  · have hlen := List.Forall₂.length_eq hforall2
    rw [← hlen, List.length_mergeSort]

/-- C5 witness: a concrete full report with no rule rows and a legible-text
row appended last. -/
theorem report_rows_sorted_witness :
    ∃ ruleRows : List ReportRow,
      [legibleTextRow fsEmpty] = (ruleRows ++
        (if fsEmpty.analyzedFailingTextLength < fsEmpty.failingTextLength
         then [addlIllegibleRow fsEmpty] else [])) ++
        (if 0 < percentageOfPassingText fsEmpty then [legibleTextRow fsEmpty] else []) ∧
      (ruleRows.map (fun row => row.coverage)).Pairwise (fun a b => b ≤ a) ∧
      List.Forall₂ (fun a row =>
          (findStyleRuleSource "https://example.com/" a.cssRule a.node).map
            (ruleRow fsEmpty a) = some row)
        ((getUniqueFailingRules fsEmpty.analyzedFailingNodesData).mergeSort
          (fun a b => decide (b.textLength ≤ a.textLength))) ruleRows ∧
      (∀ c : List FailingNodeData,
        c.Sublist (getUniqueFailingRules fsEmpty.analyzedFailingNodesData) →
        c.Pairwise (fun a b => b.textLength ≤ a.textLength) →
        c.Sublist ((getUniqueFailingRules fsEmpty.analyzedFailingNodesData).mergeSort
          (fun a b => decide (b.textLength ≤ a.textLength)))) ∧
      ruleRows.length = (getUniqueFailingRules fsEmpty.analyzedFailingNodesData).length :=
  report_rows_sorted fsEmpty "https://example.com/"
    { score := 1, notApplicable := none, explanation := none,
      displayValue := some (7 / 10), details := some [legibleTextRow fsEmpty] }
    [legibleTextRow fsEmpty] (by decide)
    (by simp [FontSize.audit, List.mergeSort_nil, getUniqueFailingRules, failingRulesMap,
          percentageOfPassingText, fsEmpty, MINIMAL_PERCENTAGE_OF_LEGIBLE_TEXT]
        norm_num
        rfl)
    rfl

/-- C6 counterexample: with one analyzed fragment of 100 characters but a
failingTextLength of 300 out of 1000 total, the aggregated rows sum to 100 and
adding the passing length 700 gives 800, not the total 1000. -/
theorem aggregate_sum_counterexample :
    ¬ (((getUniqueFailingRules fsPartial.analyzedFailingNodesData).map
          (fun f => f.textLength)).sum +
        (fsPartial.totalTextLength - fsPartial.failingTextLength) =
        fsPartial.totalTextLength) := by
  decide

/-- C6 amended: the aggregated rows always sum to the total textLength of the
input fragments; when that sum equals failingTextLength and failingTextLength
is at most totalTextLength, adding the passing-text length gives
totalTextLength. -/
theorem aggregate_sum_preserved (l : List FailingNodeData) (total failing : Nat)
    (hb : (l.map (fun f => f.textLength)).sum = failing) (hle : failing ≤ total) :
    ((getUniqueFailingRules l).map (fun f => f.textLength)).sum =
      (l.map (fun f => f.textLength)).sum ∧
    ((getUniqueFailingRules l).map (fun f => f.textLength)).sum + (total - failing) =
      total := by
  refine ⟨sum_getUniqueFailingRules l, ?_⟩
  rw [sum_getUniqueFailingRules l, hb]
  omega

/-- C6 witness: one fragment of 100 characters, failingTextLength 100 and
total 1000. -/
theorem aggregate_sum_preserved_witness :
    ([fragA].map (fun f => f.textLength)).sum = 100 ∧ (100 : Nat) ≤ 1000 ∧
    (((getUniqueFailingRules [fragA]).map (fun f => f.textLength)).sum =
        ([fragA].map (fun f => f.textLength)).sum ∧
      ((getUniqueFailingRules [fragA]).map (fun f => f.textLength)).sum + (1000 - 100) =
        1000) :=
  ⟨rfl, by decide, aggregate_sum_preserved [fragA] 1000 100 rfl (by decide)⟩

/-- C7: the aggregated textLength of every artifact id is invariant under
permutation of the input fragments, while the representative node, cssRule and
fontSize of a row are those of the first fragment seen with that id. -/
theorem aggregation_order_independent :
    (∀ (l1 l2 : List FailingNodeData), l1.Perm l2 → ∀ id : String,
      (mapGet (failingRulesMap l1) id).map (fun r => r.textLength) =
        (mapGet (failingRulesMap l2) id).map (fun r => r.textLength)) ∧
    (∀ (l : List FailingNodeData) (id : String),
      (mapGet (failingRulesMap l) id).map (fun r => (r.node, r.cssRule, r.fontSize)) =
        (l.find? (fun f => fragId f = id)).map (fun f => (f.node, f.cssRule, f.fontSize))) := by
  constructor
  · intro l1 l2 hp id
    rw [mapGet_failingRulesMap, mapGet_failingRulesMap, Option.map_map, Option.map_map]
    have hsum : sumTL l1 id = sumTL l2 id := by
      unfold sumTL
      exact List.Perm.sum_eq ((hp.filter _).map _)
    rcases h1 : l1.find? (fun f => fragId f = id) with _ | f1 <;>
      rcases h2 : l2.find? (fun f => fragId f = id) with _ | f2
    · rfl
    · exfalso
      have hmem : f2 ∈ l2 := List.mem_of_find?_eq_some h2
      have hpred := List.find?_some h2
      have : (l1.find? (fun f => decide (fragId f = id))).isSome := by
        rw [List.find?_isSome]
        exact ⟨f2, hp.mem_iff.mpr hmem, hpred⟩
      rw [h1] at this
      simp at this
    · exfalso
      have hmem : f1 ∈ l1 := List.mem_of_find?_eq_some h1
      have hpred := List.find?_some h1
      have : (l2.find? (fun f => decide (fragId f = id))).isSome := by
        rw [List.find?_isSome]
        exact ⟨f1, hp.mem_iff.mp hmem, hpred⟩
      rw [h2] at this
      simp at this
    · simp [Function.comp, hsum]
  · intro l id
    rw [mapGet_failingRulesMap, Option.map_map]
    rfl

/-- C7 witness: swapping two fragments sharing one artifact id leaves the
aggregated textLength of that id unchanged. -/
theorem aggregation_order_independent_witness :
    (mapGet (failingRulesMap [fragA, fragB]) (fragId fragA)).map (fun r => r.textLength) =
      (mapGet (failingRulesMap [fragB, fragA]) (fragId fragA)).map (fun r => r.textLength) :=
  aggregation_order_independent.1 [fragA, fragB] [fragB, fragA]
    (List.Perm.swap fragB fragA []) (fragId fragA)

/-- C9: the attribute map construction succeeds exactly on even-length
attribute lists, selector resolution succeeds exactly when the defaulted
attribute list of the node has even length, and the url branch of the source
locator fails on a node whose parent has an odd attribute list. -/
theorem selector_resolution_totality :
    (∀ attributes : List String,
      (getAttributeMap attributes).isSome = true ↔ attributes.length % 2 = 0) ∧
    (∀ node : DomNode,
      (getSelector node).isSome = true ↔ (node.attributes.getD []).length % 2 = 0) ∧
    (∀ (node parent : DomNode) (baseURL : String),
      node.parentNode = some parent →
      ¬ (parent.attributes.getD []).length % 2 = 0 →
      findStyleRuleSource baseURL none node = none) := by
  refine ⟨getAttributeMap_isSome, ?_, ?_⟩
  · intro node
    rw [← getAttributeMap_isSome, getSelector_isSome_eq]
  · intro node parent baseURL hp hodd
    have hsel : getSelector parent = none := by
      rcases h : getSelector parent with _ | s
      · rfl
      · exfalso
        apply hodd
        rw [← getAttributeMap_isSome, ← getSelector_isSome_eq, h]
        rfl
    simp [findStyleRuleSource, nodeToTableNode, hp, hsel]

/-- C9 witness: a node whose parent carries the odd attribute list of a single
name with no value slot makes the url branch of the source locator fail. -/
theorem selector_resolution_totality_witness :
    nodeWithOddParent.parentNode = some nodeOddAttrs ∧
    findStyleRuleSource "https://example.com/" none nodeWithOddParent = none :=
  ⟨rfl, selector_resolution_totality.2.2 nodeWithOddParent nodeOddAttrs
    "https://example.com/" rfl (by decide)⟩

/-- C10 counterexample: a Regular descriptor with no stylesheet but a
user-agent parentRule resolves to the User Agent Stylesheet code label, not to
Unknown as the claim states. -/
theorem no_stylesheet_counterexample :
    uaNoSheetRule.type = "Regular" ∧ uaNoSheetRule.stylesheet = none ∧
    findStyleRuleSource "https://example.com/" (some uaNoSheetRule) nodeSpan =
      some { source := Source.code "User Agent Stylesheet",
             selector := SelectorVal.str ".x" } ∧
    ¬ (findStyleRuleSource "https://example.com/" (some uaNoSheetRule) nodeSpan =
        some { source := Source.code "Unknown",
               selector := SelectorVal.str (joinSelectors uaNoSheetRule.parentRule) }) := by
  exact ⟨rfl, rfl, rfl, by decide⟩

/-- C10 amended: a Regular descriptor with no stylesheet object and whose
parentRule is absent or not of user-agent origin resolves to the Unknown code
label with the joined parentRule selectors (or the empty string) as selector,
regardless of whether a range is present. -/
theorem no_stylesheet_is_unknown (baseURL : String) (sd : CssRule) (node : DomNode)
    (hreg : sd.type = "Regular") (hss : sd.stylesheet = none)
    (hua : ¬ sd.parentRule.map (fun pr => pr.origin) = some "user-agent") :
    findStyleRuleSource baseURL (some sd) node =
      some { source := Source.code "Unknown",
             selector := SelectorVal.str (joinSelectors sd.parentRule) } := by
  have hAI : ¬ (sd.type = "Attributes" ∨ sd.type = "Inline") := by rw [hreg]; decide
  simp only [findStyleRuleSource]
  rw [if_neg hAI, if_neg hua]
  simp [hss]

/-- C10 witness: a Regular rule with a range, a non-user-agent parentRule and
no stylesheet resolves to Unknown with the joined selectors. -/
theorem no_stylesheet_is_unknown_witness :
    findStyleRuleSource "https://example.com/" (some noSheetRule) nodeSpan =
      some { source := Source.code "Unknown",
             selector := SelectorVal.str (joinSelectors noSheetRule.parentRule) } :=
  no_stylesheet_is_unknown "https://example.com/" noSheetRule nodeSpan rfl rfl (by decide)

end FontSizeAudit
